import Mathlib

/-!
Shallow embedding of the websocket-pubsub repository
(`src/pubsub/backend/src/index.ts` and `src/pubsub/worker/src/index.ts`)
and proofs about its Connection Registry, Result Router, submission
handler, Worker loop and queue usage.

Modelling conventions:
* A WebSocket connection handle (`ws` object) is modelled by a natural
  number `Conn`; two distinct handles are distinct numbers, and JS `===`
  on handles is equality on `Conn`.
* TypeScript type annotations are erased at runtime, so every field read
  out of `JSON.parse`d data (`req.body`, a queue element, a WS message)
  is a string *or* `undefined`; such a field is modelled as
  `Option String`, with `none` standing for an absent field.
* `JSON.parse` applied to text that is not valid JSON throws.  Inbound
  raw texts are therefore modelled by inductive wire types with a
  `malformed` constructor, and a handler whose body can let that
  exception escape returns `Option` (`none` = the exception propagated
  out of the handler).
* `JSON.stringify` on a record is injective on the fields the system
  reads back, so serialization/deserialization of a record along the
  queues is modelled as carrying the record itself.
* The JS `Map` `wsClients` is modelled as an association list with at
  most one live binding per key; `Map.prototype.set` and
  `Map.prototype.get` are `mapSet`/`mapGet` below.
-/

namespace WsPubSub

/-- A WebSocket connection handle. -/
abbrev Conn := Nat

/-- A submitter identity as read from a parsed JSON field
(`msg.userId`, `result.userId`): a string, or `none` when the field is
absent from the JSON object. -/
abbrev Identity := Option String

/-- `SubmitPayload` from `backend/src/index.ts` / `worker/src/index.ts`;
fields are runtime JSON fields, hence possibly absent. -/
structure SubmitPayload where
  userId : Option String
  username : Option String
  problemTd : Option String
  code : Option String
  language : Option String
deriving DecidableEq, Repr

/-- `ResultPayload` from `backend/src/index.ts`: what the worker pushes
to the `results` queue and the router parses back. -/
structure ResultPayload where
  userId : Option String
  username : Option String
  problemTd : Option String
  status : Option String
deriving DecidableEq, Repr

/-- The `wsClients` map: submitter identity to connection handle. -/
abbrev Registry := List (Identity × Conn)

/-- Model of `Map.prototype.get`: value of the (unique) binding of `k`. -/
def mapGet (m : Registry) (k : Identity) : Option Conn :=
  match m with
  | [] => none
  | (k', v) :: rest => if k' = k then some v else mapGet rest k

/-- Model of `Map.prototype.set`: replaces the value of an existing
binding of `k` in place, otherwise appends a new binding at the end. -/
def mapSet (m : Registry) (k : Identity) (v : Conn) : Registry :=
  match m with
  | [] => [(k, v)]
  | (k', v') :: rest =>
    if k' = k then (k, v) :: rest else (k', v') :: mapSet rest k v

/-- The keys of the registry, in insertion order. -/
def keys : Registry → List Identity
  | [] => []
  | (k, _) :: rest => k :: keys rest

/-- The JS `Map` invariant: at most one binding per key. -/
def keysDistinct (m : Registry) : Prop := (keys m).Nodup

/-- An inbound WebSocket text frame as the backend's `message` handler
sees it: either text that is not valid JSON (`JSON.parse` throws), or a
parsed object with the fields the handler reads. -/
inductive WsMsg where
  | malformed
  | valid (type_ : Option String) (userId : Option String)
      (username : Option String)
deriving DecidableEq, Repr

/-- The backend's `ws.on('message')` handler (lines 97-109): parse the
frame, and on `msg.type === 'register'` do `wsClients.set(msg.userId, ws)`.
There is no try/catch, so on malformed input the `JSON.parse` exception
escapes the handler: modelled as `none`.  Returns the registry after the
handler ran. -/
def messageHandler (clients : Registry) (ws : Conn) (m : WsMsg) :
    Option Registry :=
  match m with
  | .malformed => none
  | .valid t u _ =>
    some (if t = some "register" then mapSet clients u ws else clients)

/-- The backend's `ws.on('close')` handler (lines 111-115):
`wsClients.forEach((client, userId) => if (client === ws) delete userId)`.
Deleting entries while `Map.forEach` iterates is well defined in JS and
visits every original entry, so the net effect is to drop exactly the
bindings whose value is `ws`, keeping the rest in order. -/
def closeHandler (clients : Registry) (ws : Conn) : Registry :=
  match clients with
  | [] => []
  | (k, v) :: rest =>
    if v = ws then closeHandler rest ws else (k, v) :: closeHandler rest ws

/-- An HTTP response produced by the `/submit` route. -/
structure HttpResponse where
  status : Nat
  message : String
deriving DecidableEq, Repr

/-- An element of the Redis `problems` list as the worker's
`JSON.parse(res.element)` sees it: either text that is not valid JSON,
or a serialized job record. -/
inductive QElem where
  | malformed
  | jobElem (p : SubmitPayload)
deriving DecidableEq, Repr

/-- JS falsiness of a string-or-undefined field, as tested by
`!payload.userId` etc.: `undefined` and the empty string are falsy. -/
def falsy : Option String → Bool
  | none => true
  | some s => s == ""

/-- The backend's `app.post('/submit')` handler (lines 123-151) acting
on the `problems` queue.  `pushOk` is whether `redisClient.rPush`
succeeds; when it throws, the catch block answers 500 and the queue is
unchanged.  Returns the response and the queue after the call. -/
def submitHandler (queue : List QElem) (payload : SubmitPayload)
    (pushOk : Bool) : HttpResponse × List QElem :=
  if falsy payload.userId || falsy payload.username ||
      falsy payload.problemTd then
    (⟨400, "Missing fields"⟩, queue)
  else if pushOk then
    (⟨200, "✅ Submitted"⟩, queue ++ [QElem.jobElem payload])
  else
    (⟨500, "Server error"⟩, queue)

/-- Redis `rPush`: append to the tail of the list. -/
def rPush (q : List α) (x : α) : List α := q ++ [x]

/-- Redis `blPop` as used with timeout 0 once an element is available:
pop from the head, returning the element and the remaining list. -/
def blPop : List α → Option (α × List α)
  | [] => none
  | x :: rest => some (x, rest)

/-- The sequence of elements a single consumer obtains by repeatedly
calling `blPop` until the list is empty. -/
def drain : List α → List α
  | [] => []
  | x :: rest =>
    match blPop (x :: rest) with
    | none => []
    | some p => p.1 :: drain rest

/-- What one iteration of a loop body did. -/
structure WorkerOutcome where
  /-- results `rPush`ed to the `results` queue during the iteration -/
  pushes : List ResultPayload
  /-- an exception escaped the loop body, terminating the `while` loop -/
  crashed : Bool
deriving DecidableEq, Repr

/-- One iteration of the worker's `while (true)` body
(`worker/src/index.ts` lines 43-70), given the element `blPop` returned
from `problems`: `JSON.parse` it (no try/catch — a parse failure
escapes the loop and ends it), simulate execution, and `rPush` one
result copying `userId`, `username`, `problemTd` with
`status: 'Accepted ✅'`. -/
def workerIter : QElem → WorkerOutcome
  | .malformed => ⟨[], true⟩
  | .jobElem p =>
    ⟨[⟨p.userId, p.username, p.problemTd, some "Accepted ✅"⟩], false⟩

/-- What one iteration of `listenForResults` did. -/
structure RouterOutcome where
  /-- the `wsClients` registry when the iteration ends -/
  newClients : Registry
  /-- `ws.send` calls performed: (connection, serialized result) -/
  sends : List (Conn × ResultPayload)
  /-- the iteration reached the tail call `listenForResults()` -/
  continues : Bool
deriving DecidableEq, Repr

/-- One iteration of `listenForResults` (`backend/src/index.ts` lines
158-171) after `blPop('results', 0)` returned an element that parsed to
`r`: look up `wsClients.get(result.userId)`; if present and
`readyState === OPEN` (given by `isOpen`), send the serialized result
to that connection; in every case fall through to the tail call.  The
body never writes `wsClients`. -/
def listenIter (clients : Registry) (isOpen : Conn → Bool)
    (r : ResultPayload) : RouterOutcome :=
  { newClients := clients
    sends :=
      match mapGet clients r.userId with
      | some ws => if isOpen ws then [(ws, r)] else []
      | none => []
    continues := true }

/-! ### Helper lemmas about the registry operations -/

theorem mapGet_mapSet_self (m : Registry) (k : Identity) (v : Conn) :
    mapGet (mapSet m k v) k = some v := by
  induction m with
  | nil => simp [mapSet, mapGet]
  | cons e rest ih =>
    obtain ⟨k', v'⟩ := e
    by_cases h : k' = k
    · simp [mapSet, mapGet, h]
    · simp [mapSet, mapGet, h, ih]

theorem mem_keys_mapSet {m : Registry} {k j : Identity} {v : Conn}
    (h : j ∈ keys (mapSet m k v)) :
    j ∈ keys m ∨ j = k := by
  induction m with
  | nil =>
    simp [mapSet, keys] at h
    exact Or.inr h
  | cons e rest ih =>
    obtain ⟨k', v'⟩ := e
    by_cases hk : k' = k
    · subst hk
      simp only [mapSet, if_pos rfl, keys, List.mem_cons] at h
      rcases h with h | h
      · exact Or.inr h
      · exact Or.inl (by simp [keys, h])
    · simp only [mapSet, if_neg hk, keys, List.mem_cons] at h
      rcases h with h | h
      · exact Or.inl (by simp [keys, h])
      · rcases ih h with h' | h'
        · exact Or.inl (by simp [keys, h'])
        · exact Or.inr h'

theorem keysDistinct_mapSet {m : Registry} (k : Identity) (v : Conn)
    (hdk : keysDistinct m) : keysDistinct (mapSet m k v) := by
  induction m with
  | nil => simp [keysDistinct, mapSet, keys]
  | cons e rest ih =>
    obtain ⟨k', v'⟩ := e
    unfold keysDistinct at hdk ⊢
    simp only [keys, List.nodup_cons] at hdk
    by_cases hk : k' = k
    · subst hk
      simp only [mapSet, if_pos rfl, keys, List.nodup_cons]
      exact ⟨hdk.1, hdk.2⟩
    · simp only [mapSet, if_neg hk, keys, List.nodup_cons]
      refine ⟨?_, ih hdk.2⟩
      intro hmem
      rcases mem_keys_mapSet hmem with h | h
      · exact hdk.1 h
      · exact hk h

theorem mapGet_closeHandler_of_ne {m : Registry} {c : Conn} {i : Identity}
    {v : Conn} (hv : v ≠ c) (h : mapGet m i = some v) :
    mapGet (closeHandler m c) i = some v := by
  induction m with
  | nil => simp [mapGet] at h
  | cons e rest ih =>
    obtain ⟨k', v'⟩ := e
    by_cases hk : k' = i
    · subst hk
      rw [mapGet, if_pos rfl] at h
      cases h
      rw [closeHandler, if_neg hv, mapGet, if_pos rfl]
    · rw [mapGet, if_neg hk] at h
      by_cases hvc : v' = c
      · rw [closeHandler, if_pos hvc]
        exact ih h
      · rw [closeHandler, if_neg hvc, mapGet, if_neg hk]
        exact ih h

theorem mapGet_closeHandler_ne_conn {m : Registry} {c : Conn}
    {i : Identity} {v : Conn}
    (h : mapGet (closeHandler m c) i = some v) : v ≠ c := by
  induction m with
  | nil => simp [closeHandler, mapGet] at h
  | cons e rest ih =>
    obtain ⟨k', v'⟩ := e
    by_cases hvc : v' = c
    · rw [closeHandler, if_pos hvc] at h
      exact ih h
    · rw [closeHandler, if_neg hvc] at h
      by_cases hk : k' = i
      · rw [mapGet, if_pos hk] at h
        cases h
        exact hvc
      · rw [mapGet, if_neg hk] at h
        exact ih h

/-! ### Helper lemmas about the queue model -/

theorem drain_eq_self (l : List α) : drain l = l := by
  induction l with
  | nil => rfl
  | cons x rest ih => simp [drain, blPop, ih]

theorem get?_append_cons (l : List α) (a : α) (t : List α) :
    (l ++ a :: t).get? l.length = some a := by
  induction l with
  | nil => rfl
  | cons x xs ih => simpa using ih

/-! ### The claims -/

/-- C1: for every result record dequeued by the Result Router whose
submitter identity has a registered, open connection, the router sends
the serialized result to exactly that connection (the one currently
mapped to the result's identity) and to no other connection. -/
theorem router_delivers_to_owner_only (clients : Registry)
    (isOpen : Conn → Bool) (r : ResultPayload) (c : Conn)
    (hreg : mapGet clients r.userId = some c) (hopen : isOpen c = true) :
    (listenIter clients isOpen r).sends = [(c, r)] ∧
    ∀ s ∈ (listenIter clients isOpen r).sends, s.1 = c := by
  simp [listenIter, hreg, hopen]

/-- Witness for C1 at a concrete registry with two submitters. -/
theorem router_delivers_to_owner_only_witness :
    (listenIter [(some "u1", 1), (some "u2", 2)] (fun _ => true)
        ⟨some "u1", some "alice", some "two_sum", some "Accepted ✅"⟩).sends =
      [(1, ⟨some "u1", some "alice", some "two_sum", some "Accepted ✅"⟩)] ∧
    ∀ s ∈ (listenIter [(some "u1", 1), (some "u2", 2)] (fun _ => true)
        ⟨some "u1", some "alice", some "two_sum", some "Accepted ✅"⟩).sends,
      s.1 = 1 :=
  router_delivers_to_owner_only _ _ _ 1 rfl rfl

/-- C2: `register` is an idempotent upsert with last-writer-wins
semantics: the registration handler succeeds, the registry keeps at
most one binding per identity, lookup returns the new connection, and
every subsequently routed result for that identity goes only to the new
connection, never to the old one (whatever the old connection's open
state). -/
theorem register_upsert_last_writer_wins (clients : Registry)
    (i : Identity) (cOld cNew : Conn) (uname : Option String)
    (isOpen : Conn → Bool) (r : ResultPayload)
    (hdk : keysDistinct clients)
    (hold : mapGet clients i = some cOld)
    (hne : cOld ≠ cNew) (hr : r.userId = i) :
    ∃ clients',
      messageHandler clients cNew (.valid (some "register") i uname) =
        some clients' ∧
      keysDistinct clients' ∧
      mapGet clients' i = some cNew ∧
      (isOpen cNew = true →
        (listenIter clients' isOpen r).sends = [(cNew, r)]) ∧
      ∀ s ∈ (listenIter clients' isOpen r).sends, s.1 ≠ cOld := by
  refine ⟨mapSet clients i cNew, by simp [messageHandler],
    keysDistinct_mapSet i cNew hdk, mapGet_mapSet_self clients i cNew,
    ?_, ?_⟩
  · intro hoNew
    simp [listenIter, hr, mapGet_mapSet_self, hoNew]
  · intro s hs
    simp only [listenIter, hr, mapGet_mapSet_self] at hs
    by_cases hoNew : isOpen cNew
    · rw [if_pos hoNew] at hs
      simp at hs
      subst hs
      exact fun hcontra => hne hcontra.symm
    · rw [if_neg hoNew] at hs
      simp at hs

/-- Witness for C2: re-register identity u1 from connection 1 to
connection 2 while connection 1 is still open. -/
theorem register_upsert_last_writer_wins_witness :
    keysDistinct [(some "u1", 1)] ∧
    mapGet [(some "u1", 1)] (some "u1") = some 1 ∧ (1 : Conn) ≠ 2 ∧
    ∃ clients',
      messageHandler [(some "u1", 1)] 2
          (.valid (some "register") (some "u1") (some "alice")) =
        some clients' ∧
      keysDistinct clients' ∧
      mapGet clients' (some "u1") = some 2 ∧
      ((fun _ => true) 2 = true →
        (listenIter clients' (fun _ => true)
            ⟨some "u1", some "alice", some "two_sum", some "ok"⟩).sends =
          [(2, ⟨some "u1", some "alice", some "two_sum", some "ok"⟩)]) ∧
      ∀ s ∈ (listenIter clients' (fun _ => true)
          ⟨some "u1", some "alice", some "two_sum", some "ok"⟩).sends,
        s.1 ≠ 1 :=
  ⟨by simp [keysDistinct, keys], rfl, by decide,
    register_upsert_last_writer_wins [(some "u1", 1)] (some "u1") 1 2
      (some "alice") (fun _ => true)
      ⟨some "u1", some "alice", some "two_sum", some "ok"⟩
      (by simp [keysDistinct, keys]) rfl (by decide) rfl⟩

/-- C3: the close handler removes a binding only when its value is the
exact closing connection: if a newer connection already superseded the
closing one as the entry for an identity, closing the old connection
leaves the newer entry in place and lookup still succeeds. -/
theorem close_preserves_superseding_entry (clients : Registry)
    (i : Identity) (cOld cNew : Conn)
    (hcur : mapGet clients i = some cNew) (hne : cNew ≠ cOld) :
    mapGet (closeHandler clients cOld) i = some cNew :=
  mapGet_closeHandler_of_ne hne hcur

/-- Witness for C3: u1 re-registered on connection 2; closing stale
connection 1 leaves u1's entry at connection 2. -/
theorem close_preserves_superseding_entry_witness :
    mapGet (closeHandler [(some "u1", 2), (some "u2", 1)] 1) (some "u1") =
      some 2 :=
  close_preserves_superseding_entry _ (some "u1") 1 2 rfl (by decide)

/-- C4: a result whose identity has no registered connection, or whose
registered connection is not open, is dropped: no send happens, the
registry is left unchanged, and the iteration still reaches its tail
call to dequeue the next result. -/
theorem router_drops_when_unroutable (clients : Registry)
    (isOpen : Conn → Bool) (r : ResultPayload)
    (h : mapGet clients r.userId = none ∨
      ∃ c, mapGet clients r.userId = some c ∧ isOpen c = false) :
    (listenIter clients isOpen r).sends = [] ∧
    (listenIter clients isOpen r).newClients = clients ∧
    (listenIter clients isOpen r).continues = true := by
  rcases h with h | ⟨c, hc, ho⟩
  · simp [listenIter, h]
  · simp [listenIter, hc, ho]

/-- Witness for C4: a result for unregistered u9, against a registry
holding u1 only. -/
theorem router_drops_when_unroutable_witness :
    (listenIter [(some "u1", 1)] (fun _ => true)
        ⟨some "u9", some "bob", some "two_sum", some "ok"⟩).sends = [] ∧
    (listenIter [(some "u1", 1)] (fun _ => true)
        ⟨some "u9", some "bob", some "two_sum", some "ok"⟩).newClients =
      [(some "u1", 1)] ∧
    (listenIter [(some "u1", 1)] (fun _ => true)
        ⟨some "u9", some "bob", some "two_sum", some "ok"⟩).continues =
      true :=
  router_drops_when_unroutable _ _ _ (Or.inl rfl)

/-- C5: the `/submit` handler rejects a payload with a missing (falsy)
identity, display name or problem identifier with status 400 and leaves
the queue untouched; with all three present it answers 200 and appends
exactly the job when the queue write succeeds, and answers 500 leaving
the queue unchanged when the write fails. -/
theorem submit_validation_and_enqueue (queue : List QElem)
    (p : SubmitPayload) (pushOk : Bool) :
    ((falsy p.userId || falsy p.username || falsy p.problemTd) = true →
      submitHandler queue p pushOk = (⟨400, "Missing fields"⟩, queue)) ∧
    ((falsy p.userId || falsy p.username || falsy p.problemTd) = false →
      pushOk = true →
      submitHandler queue p pushOk =
        (⟨200, "✅ Submitted"⟩, queue ++ [QElem.jobElem p])) ∧
    ((falsy p.userId || falsy p.username || falsy p.problemTd) = false →
      pushOk = false →
      submitHandler queue p pushOk = (⟨500, "Server error"⟩, queue)) := by
  refine ⟨fun h => ?_, fun h hp => ?_, fun h hp => ?_⟩
  · simp [submitHandler, h]
  · simp [submitHandler, h, hp]
  · simp [submitHandler, h, hp]

/-- Witness for C5: a payload missing `userId` is rejected; a complete
payload is enqueued on success and refused with 500 on write failure. -/
theorem submit_validation_and_enqueue_witness :
    submitHandler [] ⟨none, some "alice", some "two_sum", some "x", some "js"⟩
        true = (⟨400, "Missing fields"⟩, []) ∧
    submitHandler []
        ⟨some "u1", some "alice", some "two_sum", some "x", some "js"⟩ true =
      (⟨200, "✅ Submitted"⟩,
        [QElem.jobElem
          ⟨some "u1", some "alice", some "two_sum", some "x", some "js"⟩]) ∧
    submitHandler []
        ⟨some "u1", some "alice", some "two_sum", some "x", some "js"⟩ false =
      (⟨500, "Server error"⟩, []) :=
  ⟨(submit_validation_and_enqueue [] _ true).1 rfl,
    by
      have h := (submit_validation_and_enqueue []
        ⟨some "u1", some "alice", some "two_sum", some "x", some "js"⟩
        true).2.1 rfl rfl
      simpa using h,
    (submit_validation_and_enqueue []
        ⟨some "u1", some "alice", some "two_sum", some "x", some "js"⟩
        false).2.2 rfl rfl⟩

/-- C6: for every job the worker dequeues, one iteration pushes exactly
one result, whose identity, display name and problem identifier are
copied through from the job unchanged and whose status field is present
and non-empty, and the iteration does not crash (the loop continues). -/
theorem worker_one_result_fields_copied (p : SubmitPayload) :
    workerIter (QElem.jobElem p) =
      ⟨[⟨p.userId, p.username, p.problemTd, some "Accepted ✅"⟩], false⟩ ∧
    (workerIter (QElem.jobElem p)).pushes.length = 1 ∧
    ∀ res ∈ (workerIter (QElem.jobElem p)).pushes,
      res.userId = p.userId ∧ res.username = p.username ∧
      res.problemTd = p.problemTd ∧
      res.status ≠ none ∧ res.status ≠ some "" := by
  refine ⟨rfl, rfl, ?_⟩
  intro res hres
  simp [workerIter] at hres
  subst hres
  simp

/-- C7: the job queue is FIFO: pushing J1 then J2 onto any queue makes a
single consumer that repeatedly `blPop`s obtain exactly the enqueue
order, with J1 at position `q.length` strictly before J2 at position
`q.length + 1`. -/
theorem jobQueue_fifo (q : List QElem) (J1 J2 : QElem) :
    drain (rPush (rPush q J1) J2) = q ++ [J1, J2] ∧
    (rPush (rPush q J1) J2).get? q.length = some J1 ∧
    (rPush (rPush q J1) J2).get? (q.length + 1) = some J2 ∧
    q.length < q.length + 1 := by
  refine ⟨?_, ?_, ?_, Nat.lt_succ_self _⟩
  · rw [drain_eq_self]
    simp [rPush]
  · have h : rPush (rPush q J1) J2 = q ++ J1 :: [J2] := by simp [rPush]
    rw [h]
    exact get?_append_cons q J1 [J2]
  · have h : rPush (rPush q J1) J2 = (q ++ [J1]) ++ J2 :: [] := by
      simp [rPush]
    have hlen : (q ++ [J1]).length = q.length + 1 := by simp
    rw [h, ← hlen]
    exact get?_append_cons (q ++ [J1]) J2 []

/-- C8 (code divergence): the worker loop has no try/catch, so a
dequeued element that fails `JSON.parse` makes the exception escape the
`while` loop: the iteration pushes nothing and the loop terminates
instead of logging and advancing to the next job. -/
theorem worker_crashes_on_malformed_job :
    workerIter QElem.malformed = ⟨[], true⟩ := rfl

/-- C9 (code divergence): the WebSocket `message` handler calls
`JSON.parse` with no try/catch, so a malformed frame makes the
exception escape the handler (crashing the process under Node's default
uncaught-exception policy) instead of being discarded and logged with
the registry unchanged. -/
theorem messageHandler_throws_on_malformed :
    messageHandler [(some "u1", 1)] 2 WsMsg.malformed = none := rfl

/-- C10: after the close handler runs for connection c, no identity
maps to c any more — every binding whose value is c is removed, even
when c was registered under several identities — and every binding
whose value is a different connection survives with its value. -/
theorem close_purges_exactly_own_entries (clients : Registry) (c : Conn) :
    (∀ i : Identity, mapGet (closeHandler clients c) i ≠ some c) ∧
    (∀ (i : Identity) (cv : Conn), cv ≠ c → mapGet clients i = some cv →
      mapGet (closeHandler clients c) i = some cv) := by
  constructor
  · intro i hcontra
    exact mapGet_closeHandler_ne_conn hcontra rfl
  · intro i cv hcv h
    exact mapGet_closeHandler_of_ne hcv h

/-- Witness for C10: connection 5 registered under u1 and u2, and u3 on
connection 7; closing 5 purges u1 and u2 and keeps u3. -/
theorem close_purges_exactly_own_entries_witness :
    mapGet (closeHandler [(some "u1", 5), (some "u2", 5), (some "u3", 7)] 5)
        (some "u1") ≠ some 5 ∧
    mapGet (closeHandler [(some "u1", 5), (some "u2", 5), (some "u3", 7)] 5)
        (some "u2") ≠ some 5 ∧
    mapGet (closeHandler [(some "u1", 5), (some "u2", 5), (some "u3", 7)] 5)
        (some "u3") = some 7 :=
  ⟨(close_purges_exactly_own_entries _ 5).1 (some "u1"),
    (close_purges_exactly_own_entries _ 5).1 (some "u2"),
    (close_purges_exactly_own_entries _ 5).2 (some "u3") 7 (by decide) rfl⟩

end WsPubSub
